import Mathlib

/-!
A shallow embedding of the core of the weather-station service
(src/weather_station.py): timestamp normalisation, the reading store with
its dedup key, the interval query engine, and the daily rollup aggregator.

Modelling conventions
* A timestamp is a natural number of microseconds since an epoch, so the
  calendar structure (minute, hour, day) is recovered by division; carries
  between minutes, hours and days are automatic in this linear encoding.
* Python float values are modelled as rationals.  Every claim settled here
  is about which reading is selected and how sums and counts combine, where
  the rational model agrees with the float code on the small inputs used.
* Python's builtin round (used by normalise_for_resolution) rounds a tie
  exactly half way between two integers to the even one.  For minutes in
  [0, 59] and any realistic positive resolution the float division
  minute / resolution is either an exact tie or far enough from one that
  the float result rounds like the exact rational, so the embedding uses
  exact rational rounding to even.
* SQLite tables are lists in rowid (insertion) order; UPDATE keeps a row's
  position, and the queries issued by the program contain no ORDER BY
  except for the explicit ORDER BY value DESC in the rollup recomputation,
  which the embedding performs with a sort of the filtered list.
-/

/-- Microseconds per minute. -/
def usPerMinute : ℕ := 60000000

/-- Microseconds per day. -/
def usPerDay : ℕ := 1440 * usPerMinute

/-- Exact rounding to the nearest integer of m / r, a tie going to the even
integer: the behaviour of Python's round on the float m / r for minutes
m ≤ 59 (ties are exactly representable, everything else is far from a
half-integer boundary). -/
def pyRound (m r : ℕ) : ℕ :=
  if 2 * (m % r) < r then m / r
  else if r < 2 * (m % r) then m / r + 1
  else if m / r % 2 = 0 then m / r else m / r + 1

/-- Minute-level core of normalise_for_resolution: M is a timestamp in whole
minutes; the minute within the hour, M % 60, is moved to
pyRound (M % 60) r * r, applied as a delta so hour and day carries happen. -/
def normaliseMinutes (M r : ℕ) : ℕ :=
  (M - M % 60) + pyRound (M % 60) r * r

/-- normalise_for_resolution on a bare timestamp (microseconds): truncate
seconds and microseconds (when.replace(microsecond=0, second=0)), then move
the minute by the rounding delta. -/
def normalise (t r : ℕ) : ℕ :=
  usPerMinute * normaliseMinutes (t / usPerMinute) r

/-- One row of a readings table (temperature or pressure): value is the
measured quantity; secondary_value is the optional extra column
(sensor_temperature on pressure rows, always none on temperature rows). -/
structure Reading where
  id : ℕ
  when_recorded : ℕ
  value : ℚ
  secondary_value : Option ℚ := none
  resolution : ℕ := 15
deriving Repr, DecidableEq, Inhabited

/-- One row of a daily rollup table (daily_temperature or daily_pressure). -/
structure DailyRollup where
  id : ℕ
  day : ℕ
  high : ℚ
  low : ℚ
  mean : ℚ
  median : ℚ
  high_recorded : ℕ
  low_recorded : ℕ
  median_recorded : ℕ
deriving Repr, DecidableEq, Inhabited

/-- The store for one physical quantity: its readings table and its daily
rollup table, in rowid order, with the next rowid of each table. -/
structure DB where
  readings : List Reading
  rollups : List DailyRollup
  nextReadingId : ℕ := 1
  nextRollupId : ℕ := 1
deriving Repr, DecidableEq, Inhabited

/-- A database with freshly created empty tables. -/
def emptyDB : DB := { readings := [], rollups := [] }

/-- The body accepted by the collection POST endpoints after schema load:
when_recorded (defaulted to the current time by the handler when absent,
which the embedding treats as a caller-supplied value), the required value,
the optional secondary value and the resolution (schema default 15). -/
structure InsertBody where
  when_recorded : ℕ
  value : ℚ
  secondary_value : Option ℚ := none
  resolution : ℕ := 15
deriving Repr, DecidableEq

/-- normalise_for_resolution as written: reads the resolution from the body
and replaces when_recorded with its normalised form. -/
def normalise_for_resolution (data : InsertBody) : InsertBody :=
  { data with when_recorded := normalise data.when_recorded data.resolution }

/-- ORDER BY value DESC: the comparison used to sort a day's readings. -/
def valueDesc (a b : Reading) : Prop := b.value ≤ a.value

instance : DecidableRel valueDesc := fun a b => inferInstanceAs (Decidable (b.value ≤ a.value))

instance : IsTotal Reading valueDesc := ⟨fun a b => le_total b.value a.value⟩

instance : IsTrans Reading valueDesc := ⟨fun _ _ _ h1 h2 => le_trans h2 h1⟩

/-- Sort a list of readings by value descending. -/
def sortDesc (rs : List Reading) : List Reading := rs.insertionSort valueDesc

/-- WHERE when_recorded >= day_start AND when_recorded < day_end with
day_start = d * usPerDay and day_end = (d+1) * usPerDay: the readings of
calendar day d, in rowid order. -/
def readingsForDay (rs : List Reading) (d : ℕ) : List Reading :=
  rs.filter fun r =>
    decide (d * usPerDay ≤ r.when_recorded) && decide (r.when_recorded < (d + 1) * usPerDay)

/-- The accumulation loop temp_sum += t value over a list of readings. -/
def valuesSum (rs : List Reading) : ℚ := rs.foldl (fun acc r => acc + r.value) 0

/-- The data dict built by update_daily_temperatures from a day's sorted
readings: high is temps[0], low is temps[-1], median is temps[len(temps)//2],
mean the accumulated sum divided by the count, and each recorded timestamp
comes from the reading chosen for that statistic.  The id is supplied by the
upsert (the existing rowid on update, the fresh rowid on insert). -/
def rollupData (d : ℕ) (temps : List Reading) (id : ℕ) : DailyRollup :=
  { id := id
    day := d
    high := temps.headI.value
    low := temps.getLastI.value
    mean := valuesSum temps / (temps.length : ℚ)
    median := (temps.getI (temps.length / 2)).value
    high_recorded := temps.headI.when_recorded
    low_recorded := temps.getLastI.when_recorded
    median_recorded := (temps.getI (temps.length / 2)).when_recorded }

/-- update_daily_temperatures (update_daily_pressure is line for line the
same with its own table and value column): recompute the rollup of the
calendar day containing the timestamp when, from all of that day's
readings sorted by value descending, and upsert the single rollup row.
The parameter is a full timestamp, as in the source where the reading's
datetime is passed and truncated here. -/
def update_daily_temperatures (db : DB) (when : ℕ) : DB :=
  let d := when / usPerDay
  let temps := sortDesc (readingsForDay db.readings d)
  match temps with
  | [] => db
  | t0 :: rest =>
    match db.rollups.find? (fun ru => ru.day == d) with
    | some existing =>
      { db with rollups := db.rollups.map fun ru =>
          if ru.id == existing.id then rollupData d (t0 :: rest) ru.id else ru }
    | none =>
      { db with
        rollups := db.rollups ++ [rollupData d (t0 :: rest) db.nextRollupId]
        nextRollupId := db.nextRollupId + 1 }

/-- The parsed {before, after, exactly} query arguments; a field is some
when the parameter was supplied. -/
structure Criteria where
  before : Option ℕ := none
  after : Option ℕ := none
  exactly : Option ℕ := none
deriving Repr, DecidableEq

/-- The WHERE clause produced by add_date_criteria_to_query, as a predicate
on the row's time field: exactly takes precedence and compares with =,
otherwise before adds time_field <= ? and after adds time_field >= ?. -/
def add_date_criteria_to_query (args : Criteria) (timeField : ℕ) : Bool :=
  match args.exactly with
  | some e => timeField == e
  | none =>
    (match args.before with
     | some b => decide (timeField ≤ b)
     | none => true) &&
    (match args.after with
     | some a => decide (a ≤ timeField)
     | none => true)

/-- The rowid of the first reading with the given when_recorded, if any:
SELECT rowid as id from temperature where when_recorded = ? (one=True). -/
def findByTimestamp (rs : List Reading) (t : ℕ) : Option Reading :=
  rs.find? fun r => r.when_recorded == t

/-- The outcome of a collection POST. -/
inductive PostResult where
  | created (id : ℕ)
  | conflict (id : ℕ)
deriving Repr, DecidableEq

namespace TemperatureCollection

/-- TemperatureCollection.get (PressureCollection.get is identical): the
rows passing the criteria, in the order the SELECT without ORDER BY
returns them, which for these single-table scans is rowid order. -/
def get (db : DB) (args : Criteria) : List Reading :=
  db.readings.filter fun r => add_date_criteria_to_query args r.when_recorded

/-- TemperatureCollection.post (PressureCollection.post is identical modulo
the extra optional column, which the shared body type already carries):
normalise the body, abort with 409 and the existing rowid when a reading
already occupies the normalised timestamp, otherwise insert and recompute
the day's rollup. -/
def post (db : DB) (body : InsertBody) : DB × PostResult :=
  let data := normalise_for_resolution body
  match findByTimestamp db.readings data.when_recorded with
  | some existing => (db, .conflict existing.id)
  | none =>
    let id := db.nextReadingId
    let db1 := { db with
      readings := db.readings ++
        [{ id := id
           when_recorded := data.when_recorded
           value := data.value
           secondary_value := data.secondary_value
           resolution := data.resolution }]
      nextReadingId := id + 1 }
    (update_daily_temperatures db1 data.when_recorded, .created id)

end TemperatureCollection

namespace DailyTemperatureCollection

/-- DailyTemperatureCollection.get (DailyPressureCollection.get is
identical): the rollup rows passing the criteria on the day field, in
rowid order. -/
def get (db : DB) (args : Criteria) : List DailyRollup :=
  db.rollups.filter fun ru => add_date_criteria_to_query args ru.day

end DailyTemperatureCollection

/-- The outcome of a document PUT. -/
inductive PutResult where
  | noContent
  | notFound
  | badRequest
  | serverError
deriving Repr, DecidableEq

namespace TemperatureDocument

/-- TemperatureDocument.put: the body is loaded with
TemperatureSchema(only=('temperature',)), whose temperature field is
required, so a body without a value fails validation with 400 before
anything else; then a missing rowid aborts with 404, and otherwise the
value column is updated in place and the day's rollup recomputed. -/
def put (db : DB) (id : ℕ) (body : Option ℚ) : DB × PutResult :=
  match body with
  | none => (db, .badRequest)
  | some v =>
    match db.readings.find? (fun r => r.id == id) with
    | none => (db, .notFound)
    | some result =>
      let db1 := { db with readings := db.readings.map fun r =>
        if r.id == id then { r with value := v } else r }
      (update_daily_temperatures db1 result.when_recorded, .noContent)

end TemperatureDocument

/-- The body of a pressure PUT after the partial schema load: each field is
independently present or absent. -/
structure PressurePutBody where
  value : Option ℚ := none
  secondary_value : Option ℚ := none
deriving Repr, DecidableEq

namespace PressureDocument

/-- PressureDocument.put: the body is loaded with
PressureSchema(only=('pressure','sensor_temperature')) and
partial=('pressure','sensor_temperature'), so both fields are optional; a
missing rowid aborts with 404; a body with neither field produces
UPDATE pressure SET WHERE rowid = ?, a SQL syntax error raised before any
commit (an unhandled 500, state unchanged); otherwise the supplied columns
are updated in place and the day's rollup recomputed. -/
def put (db : DB) (id : ℕ) (body : PressurePutBody) : DB × PutResult :=
  match db.readings.find? (fun r => r.id == id) with
  | none => (db, .notFound)
  | some result =>
    match body.value, body.secondary_value with
    | none, none => (db, .serverError)
    | _, _ =>
      let db1 := { db with readings := db.readings.map fun r =>
        if r.id == id then
          { r with
            value := body.value.getD r.value
            secondary_value :=
              match body.secondary_value with
              | some sv => some sv
              | none => r.secondary_value }
        else r }
      (update_daily_temperatures db1 result.when_recorded, .noContent)

end PressureDocument

/-- The sequence of committed database states during one collection POST:
the state before the request; then, when no conflict aborts the request,
the state after the commit inside perform_insert (source line 217), at
which point the reading is durable but the rollup has not been touched;
then the state after the commit inside the rollup upsert.  A failure
between the two commits leaves the middle state behind. -/
def postCommits (db : DB) (body : InsertBody) : List DB :=
  let data := normalise_for_resolution body
  match findByTimestamp db.readings data.when_recorded with
  | some _ => [db]
  | none =>
    let db1 := { db with
      readings := db.readings ++
        [{ id := db.nextReadingId
           when_recorded := data.when_recorded
           value := data.value
           secondary_value := data.secondary_value
           resolution := data.resolution }]
      nextReadingId := db.nextReadingId + 1 }
    [db, db1, update_daily_temperatures db1 data.when_recorded]

/-- The write operations of the core, for reachability statements. -/
inductive Op where
  | post (body : InsertBody)
  | put (id : ℕ) (v : ℚ)
  | recompute (when : ℕ)
deriving Repr, DecidableEq

/-- Apply one operation to the store. -/
def applyOp (db : DB) : Op → DB
  | .post b => (TemperatureCollection.post db b).1
  | .put id v => (TemperatureDocument.put db id (some v)).1
  | .recompute w => update_daily_temperatures db w

/-- Run a sequence of operations against freshly created empty tables. -/
def run (ops : List Op) : DB := ops.foldl applyOp emptyDB

/-- Modelled from the spec: the round-half-up normalisation the spec
describes, target_minute = floor(minute / resolution + 1/2) * resolution,
for comparison with the implementation's rounding. -/
def specNormaliseHalfUp (t r : ℕ) : ℕ :=
  usPerMinute *
    ((t / usPerMinute - t / usPerMinute % 60) +
      (2 * (t / usPerMinute % 60) + r) / (2 * r) * r)

/-! ### Helper lemmas about the rounding core -/

/-- pyRound m r * r is a nearest multiple of r to m (distance at most r / 2),
and an exact tie is resolved to an even multiplier. -/
theorem pyRound_nearest (m r : ℕ) (hr : 0 < r) :
    2 * (m - pyRound m r * r) ≤ r ∧ 2 * (pyRound m r * r - m) ≤ r ∧
    ((2 * (m - pyRound m r * r) = r ∨ 2 * (pyRound m r * r - m) = r) →
      pyRound m r % 2 = 0) := by
  have hdm : m / r * r + m % r = m := Nat.div_add_mod' m r
  have hrem : m % r < r := Nat.mod_lt m hr
  unfold pyRound
  generalize hrm : m % r = rem at *
  generalize hq : m / r = q at *
  have hsucc : (q + 1) * r = q * r + r := Nat.succ_mul q r
  split_ifs with h1 h2 h3 <;> (try rw [hsucc]) <;> (set T := q * r with hT) <;> omega

/-- When r divides m the rounded target is m itself. -/
theorem pyRound_exact (m r : ℕ) (hr : 0 < r) (h : r ∣ m) : pyRound m r * r = m := by
  have h0 : m % r = 0 := Nat.mod_eq_zero_of_dvd h
  unfold pyRound
  rw [h0]
  rw [if_pos (by omega)]
  exact Nat.div_mul_cancel h

/-- Idempotence of the minute-level normalisation when the resolution
divides 60: the normalised minute is again a multiple of the resolution
even after the hour carry. -/
theorem normaliseMinutes_idem (M r : ℕ) (hr : 0 < r) (hdvd : r ∣ 60) :
    normaliseMinutes (normaliseMinutes M r) r = normaliseMinutes M r := by
  set M' := normaliseMinutes M r with hM'
  have h60 : M - M % 60 = 60 * (M / 60) := by omega
  have hrM' : r ∣ M' := by
    rw [hM']
    unfold normaliseMinutes
    rw [h60]
    exact dvd_add (Dvd.dvd.mul_right hdvd _) (dvd_mul_left r _)
  have hrm : r ∣ M' % 60 := (Nat.dvd_mod_iff hdvd).mpr hrM'
  unfold normaliseMinutes
  rw [pyRound_exact _ r hr hrm]
  omega

/-! ### Claim C4 (amended): truncation, rounding to even, carries -/

/-- C4 (amended): for every timestamp and positive resolution, normalise
first zeroes seconds and sub-seconds (the result is a whole number of
minutes), then moves the minute of the hour to pyRound(minute, r) * r, the
nearest multiple of the resolution with an exact tie going to the even
multiplier (Python round is half-to-even, not half-up), applied as a delta
on the truncated timestamp so that a target of 60 or more carries into the
next hour and, at 23:53 with resolution 15, into the next day; the minute
field of the result is always in [0, 59]. -/
theorem normalise_truncation_rounding (t r : ℕ) (hr : 0 < r) :
    normalise t r % usPerMinute = 0 ∧
    normalise t r / usPerMinute % 60 < 60 ∧
    normalise t r =
      usPerMinute *
        ((t / usPerMinute - t / usPerMinute % 60) +
          pyRound (t / usPerMinute % 60) r * r) ∧
    r ∣ pyRound (t / usPerMinute % 60) r * r ∧
    2 * (t / usPerMinute % 60 - pyRound (t / usPerMinute % 60) r * r) ≤ r ∧
    2 * (pyRound (t / usPerMinute % 60) r * r - t / usPerMinute % 60) ≤ r ∧
    ((2 * (t / usPerMinute % 60 - pyRound (t / usPerMinute % 60) r * r) = r ∨
        2 * (pyRound (t / usPerMinute % 60) r * r - t / usPerMinute % 60) = r) →
      pyRound (t / usPerMinute % 60) r % 2 = 0) := by
  obtain ⟨h1, h2, h3⟩ := pyRound_nearest (t / usPerMinute % 60) r hr
  refine ⟨?_, ?_, rfl, dvd_mul_left r _, h1, h2, h3⟩
  · exact Nat.mul_mod_right _ _
  · exact Nat.mod_lt _ (by norm_num)

/-- Witness for C4: at 23:53 with resolution 15 the minute rounds to 60 and
the carry crosses both the hour and the day boundary, landing on the next
day at 00:00. -/
theorem normalise_truncation_rounding_witness :
    (0 : ℕ) < 15 ∧
    normalise ((23 * 60 + 53) * usPerMinute) 15 % usPerMinute = 0 ∧
    normalise ((23 * 60 + 53) * usPerMinute) 15 = usPerDay :=
  ⟨by norm_num, (normalise_truncation_rounding ((23 * 60 + 53) * usPerMinute) 15 (by norm_num)).1,
    by decide⟩

/-- C4 counterexample: the claim prescribes round-half-up, but the code
(Python's builtin round) sends the tie minute 5 at resolution 10 down to
minute 0 (the even multiple), where half-up would give minute 10. -/
theorem normalise_round_half_up_refuted :
    normalise (5 * usPerMinute) 10 ≠ specNormaliseHalfUp (5 * usPerMinute) 10 ∧
    normalise (5 * usPerMinute) 10 = 0 ∧
    specNormaliseHalfUp (5 * usPerMinute) 10 = 10 * usPerMinute := by
  refine ⟨?_, by decide, by decide⟩
  decide

/-! ### Claim C8 (amended): idempotence for resolutions dividing 60 -/

/-- C8 (amended): normalisation is idempotent for every resolution that
divides 60 (so the carried minute is again on the resolution grid); the
unrestricted claim fails for resolutions that do not divide 60. -/
theorem normalise_idempotent_of_dvd (t r : ℕ) (hr : 0 < r) (hdvd : r ∣ 60) :
    normalise (normalise t r) r = normalise t r := by
  unfold normalise
  rw [Nat.mul_div_cancel_left _ (by decide : 0 < usPerMinute)]
  rw [normaliseMinutes_idem _ r hr hdvd]

/-- Witness for C8: resolution 15 divides 60 and normalising 23:53 twice
equals normalising it once. -/
theorem normalise_idempotent_of_dvd_witness :
    (0 : ℕ) < 15 ∧ (15 : ℕ) ∣ 60 ∧
    normalise (normalise ((23 * 60 + 53) * usPerMinute) 15) 15 =
      normalise ((23 * 60 + 53) * usPerMinute) 15 :=
  ⟨by norm_num, by norm_num,
    normalise_idempotent_of_dvd ((23 * 60 + 53) * usPerMinute) 15 (by norm_num) (by norm_num)⟩

/-- C8 counterexample: with resolution 13 (which does not divide 60) the
reading at 00:59 normalises to 01:05, but normalising again moves it to
01:00, so normalise is not idempotent for all resolutions. -/
theorem normalise_not_idempotent_13 :
    normalise (normalise (59 * usPerMinute) 13) 13 ≠ normalise (59 * usPerMinute) 13 ∧
    normalise (59 * usPerMinute) 13 = 65 * usPerMinute ∧
    normalise (normalise (59 * usPerMinute) 13) 13 = 60 * usPerMinute := by
  refine ⟨?_, by decide, by decide⟩
  decide

/-! ### Helper lemmas about the rollup recomputation -/

/-- Recomputing a rollup never touches the readings table. -/
theorem update_daily_readings_eq (db : DB) (w : ℕ) :
    (update_daily_temperatures db w).readings = db.readings := by
  simp only [update_daily_temperatures]
  split
  · rfl
  · split <;> rfl

/-- Recomputing a rollup never touches the readings rowid counter. -/
theorem update_daily_nextReadingId_eq (db : DB) (w : ℕ) :
    (update_daily_temperatures db w).nextReadingId = db.nextReadingId := by
  simp only [update_daily_temperatures]
  split
  · rfl
  · split <;> rfl

/-! ### Claim C5: criteria semantics of the interval query -/

/-- C5: when exactly is present the query selects precisely the rows whose
time field equals it and the before / after criteria are ignored entirely;
when exactly is absent, before is an inclusive upper bound and after an
inclusive lower bound, each optional, and with no criteria at all the query
is a full table scan. -/
theorem add_date_criteria_semantics (db : DB) (c : Criteria) :
    (∀ e, c.exactly = some e →
      TemperatureCollection.get db c =
        db.readings.filter (fun r => r.when_recorded == e) ∧
      TemperatureCollection.get db c =
        TemperatureCollection.get db { exactly := some e } ∧
      DailyTemperatureCollection.get db c =
        DailyTemperatureCollection.get db { exactly := some e }) ∧
    (c.exactly = none → ∀ r : Reading,
      r ∈ TemperatureCollection.get db c ↔
        r ∈ db.readings ∧
        (∀ b, c.before = some b → r.when_recorded ≤ b) ∧
        (∀ a, c.after = some a → a ≤ r.when_recorded)) ∧
    (c.exactly = none → c.before = none → c.after = none →
      TemperatureCollection.get db c = db.readings ∧
      DailyTemperatureCollection.get db c = db.rollups) := by
  obtain ⟨cb, ca, ce⟩ := c
  refine ⟨?_, ?_, ?_⟩
  · rintro e rfl
    refine ⟨rfl, rfl, rfl⟩
  · rintro rfl r
    simp only [TemperatureCollection.get, add_date_criteria_to_query, List.mem_filter,
      Bool.and_eq_true, decide_eq_true_eq]
    cases cb <;> cases ca <;> simp
  · rintro rfl rfl rfl
    constructor
    · simp [TemperatureCollection.get, add_date_criteria_to_query, List.filter_eq_self]
    · simp [DailyTemperatureCollection.get, add_date_criteria_to_query, List.filter_eq_self]

/-- Witness for C5 at a concrete store and criteria set. -/
theorem add_date_criteria_semantics_witness :
    let db : DB := { readings := [{ id := 1, when_recorded := 7, value := 1 }], rollups := [] }
    let c : Criteria := { before := some 3, after := some 1, exactly := some 7 }
    c.exactly = some 7 ∧
    TemperatureCollection.get db c = db.readings.filter (fun r => r.when_recorded == 7) :=
  ⟨rfl, ((add_date_criteria_semantics _ _).1 7 rfl).1⟩

/-- Unfolding of post in the conflict case: the lookup hit aborts the
request before any write. -/
theorem post_of_find_some (db : DB) (b : InsertBody) (ex : Reading)
    (h : findByTimestamp db.readings (normalise b.when_recorded b.resolution) = some ex) :
    TemperatureCollection.post db b = (db, .conflict ex.id) := by
  unfold TemperatureCollection.post
  simp only [normalise_for_resolution, h]

/-- Unfolding of post in the fresh case: append the reading with the next
rowid, then recompute its day. -/
theorem post_of_find_none (db : DB) (b : InsertBody)
    (h : findByTimestamp db.readings (normalise b.when_recorded b.resolution) = none) :
    TemperatureCollection.post db b =
      (update_daily_temperatures
        { db with
          readings := db.readings ++
            [{ id := db.nextReadingId
               when_recorded := normalise b.when_recorded b.resolution
               value := b.value
               secondary_value := b.secondary_value
               resolution := b.resolution }]
          nextReadingId := db.nextReadingId + 1 }
        (normalise b.when_recorded b.resolution), .created db.nextReadingId) := by
  unfold TemperatureCollection.post
  simp only [normalise_for_resolution, h]

/-! ### Claim C10: a conflicting insert changes nothing -/

/-- C10: when a reading already occupies the normalised timestamp, post
aborts with the conflict before performing any write: the returned state is
exactly the input state (no reading row added, no rollup recomputation),
and the conflict carries the identifier of the occupying row. -/
theorem post_conflict_no_change (db : DB) (b : InsertBody) (existing : Reading)
    (h : findByTimestamp db.readings (normalise b.when_recorded b.resolution) = some existing) :
    TemperatureCollection.post db b = (db, .conflict existing.id) :=
  post_of_find_some db b existing h

/-- Witness for C10: a second insert at an occupied slot returns the state
unchanged together with the occupying rowid. -/
theorem post_conflict_no_change_witness :
    let db : DB :=
      { readings := [{ id := 1, when_recorded := 0, value := 1 }]
        rollups := [{ id := 1, day := 0, high := 1, low := 1, mean := 1, median := 1,
                      high_recorded := 0, low_recorded := 0, median_recorded := 0 }]
        nextReadingId := 2, nextRollupId := 2 }
    TemperatureCollection.post db { when_recorded := 0, value := 5 } =
      (db, .conflict 1) :=
  post_conflict_no_change _ _ { id := 1, when_recorded := 0, value := 1 } (by decide)

/-! ### Claim C2: timestamp dedup returns a conflict with the first id -/

/-- find? over an append when the first part has no hit. -/
theorem find?_append_of_none {α : Type} {p : α → Bool} {l1 l2 : List α}
    (h : l1.find? p = none) : (l1 ++ l2).find? p = l2.find? p := by
  rw [List.find?_append, h, Option.none_or]

/-- C2: with no reading yet at the normalised timestamp t of the first
body, the first insert succeeds and returns the next rowid, which is fresh
(held by no stored reading); afterwards exactly one stored row has
timestamp t, and a second insert whose body normalises to the same t
returns a conflict carrying the first insert's identifier and leaves the
store untouched, so there is still exactly one row at t. -/
theorem post_duplicate_timestamp_conflict (db : DB) (b1 b2 : InsertBody)
    (hfresh : findByTimestamp db.readings (normalise b1.when_recorded b1.resolution) = none)
    (hids : ∀ r ∈ db.readings, r.id < db.nextReadingId)
    (hsame : normalise b2.when_recorded b2.resolution =
      normalise b1.when_recorded b1.resolution) :
    (TemperatureCollection.post db b1).2 = .created db.nextReadingId ∧
    (∀ r ∈ db.readings, r.id ≠ db.nextReadingId) ∧
    ((TemperatureCollection.post db b1).1.readings.filter
        (fun r => r.when_recorded == normalise b1.when_recorded b1.resolution)).length = 1 ∧
    (TemperatureCollection.post (TemperatureCollection.post db b1).1 b2).2 =
      .conflict db.nextReadingId ∧
    (TemperatureCollection.post (TemperatureCollection.post db b1).1 b2).1 =
      (TemperatureCollection.post db b1).1 := by
  have hall : ∀ r ∈ db.readings,
      ¬ (r.when_recorded == normalise b1.when_recorded b1.resolution) = true := by
    intro r hr
    exact List.find?_eq_none.mp hfresh r hr
  have hpost1 := post_of_find_none db b1 hfresh
  have hreadings1 : (TemperatureCollection.post db b1).1.readings =
      db.readings ++
        [{ id := db.nextReadingId
           when_recorded := normalise b1.when_recorded b1.resolution
           value := b1.value
           secondary_value := b1.secondary_value
           resolution := b1.resolution }] := by
    rw [hpost1, update_daily_readings_eq]
  have hfilter : db.readings.filter
      (fun r => r.when_recorded == normalise b1.when_recorded b1.resolution) = [] := by
    apply List.filter_eq_nil_iff.mpr
    exact hall
  have hfind2 : findByTimestamp (TemperatureCollection.post db b1).1.readings
      (normalise b2.when_recorded b2.resolution) =
      some { id := db.nextReadingId
             when_recorded := normalise b1.when_recorded b1.resolution
             value := b1.value
             secondary_value := b1.secondary_value
             resolution := b1.resolution } := by
    rw [hreadings1]
    unfold findByTimestamp
    rw [hsame, find?_append_of_none hfresh]
    simp [List.find?]
  refine ⟨by rw [hpost1], ?_, ?_, ?_, ?_⟩
  · intro r hr
    exact Nat.ne_of_lt (hids r hr)
  · rw [hreadings1, List.filter_append, hfilter]
    simp
  · rw [post_of_find_some _ _ _ hfind2]
  · rw [post_of_find_some _ _ _ hfind2]

/-- Witness for C2: two posts at the same normalised timestamp against the
fresh store. -/
theorem post_duplicate_timestamp_conflict_witness :
    (TemperatureCollection.post emptyDB { when_recorded := 0, value := 1 }).2 =
      .created 1 ∧
    (TemperatureCollection.post
        (TemperatureCollection.post emptyDB { when_recorded := 0, value := 1 }).1
        { when_recorded := 0, value := 2 }).2 = .conflict 1 := by
  have h := post_duplicate_timestamp_conflict emptyDB
    { when_recorded := 0, value := 1 } { when_recorded := 0, value := 2 }
    (by decide) (by intro r hr; simp [emptyDB] at hr) rfl
  exact ⟨h.1, h.2.2.2.1⟩

/-! ### Claim C7 (amended): the insert commits before the rollup commit -/

/-- C7 (amended): a non-conflicting insert produces exactly three committed
states: the prior state, a middle state committed by perform_insert in
which the new reading is durable while the rollup tables are exactly as
before (stale with respect to the new reading), and the final state after
the separately committed rollup upsert; the write and the recompute are
not one all-or-nothing unit, so a failure between the two commits leaves
the middle state behind. -/
theorem postCommits_reading_before_rollup (db : DB) (b : InsertBody)
    (h : findByTimestamp db.readings (normalise b.when_recorded b.resolution) = none) :
    ∃ mid fin : DB,
      postCommits db b = [db, mid, fin] ∧
      mid.rollups = db.rollups ∧
      (∃ r ∈ mid.readings, r ∉ db.readings ∧
        r.when_recorded = normalise b.when_recorded b.resolution ∧
        r.id = db.nextReadingId) ∧
      fin = update_daily_temperatures mid (normalise b.when_recorded b.resolution) := by
  refine ⟨{ db with
            readings := db.readings ++
              [{ id := db.nextReadingId
                 when_recorded := normalise b.when_recorded b.resolution
                 value := b.value
                 secondary_value := b.secondary_value
                 resolution := b.resolution }]
            nextReadingId := db.nextReadingId + 1 }, _, ?_, rfl, ?_, rfl⟩
  · unfold postCommits
    simp only [normalise_for_resolution, h]
  · refine ⟨{ id := db.nextReadingId
              when_recorded := normalise b.when_recorded b.resolution
              value := b.value
              secondary_value := b.secondary_value
              resolution := b.resolution }, ?_, ?_, rfl, rfl⟩
    · simp
    · intro hmem
      have := List.find?_eq_none.mp h _ hmem
      simp at this

/-- Witness for C7: inserting into the fresh store, the middle committed
state holds the reading while both rollup tables are still empty. -/
theorem postCommits_reading_before_rollup_witness :
    (∃ mid fin : DB,
      postCommits emptyDB { when_recorded := 0, value := 1 } = [emptyDB, mid, fin] ∧
      mid.rollups = emptyDB.rollups ∧
      (∃ r ∈ mid.readings, r ∉ emptyDB.readings ∧
        r.when_recorded = normalise (0 : ℕ) 15 ∧ r.id = emptyDB.nextReadingId) ∧
      fin = update_daily_temperatures mid (normalise (0 : ℕ) 15)) ∧
    ((postCommits emptyDB { when_recorded := 0, value := 1 }).getI 1).rollups = [] ∧
    ((postCommits emptyDB { when_recorded := 0, value := 1 }).getI 2).rollups ≠ [] :=
  ⟨postCommits_reading_before_rollup emptyDB { when_recorded := 0, value := 1 } (by decide),
    by decide, by decide⟩

/-- C7 counterexample: for the concrete insert of value 1 at time 0 into
the fresh store, the committed state sequence contains a state in which
the reading is stored but the day's rollup row does not exist yet, and
that state differs from the final committed state, contradicting the
all-or-nothing claim. -/
theorem postCommits_stale_state_exists :
    ∃ mid ∈ postCommits emptyDB { when_recorded := 0, value := 1 },
      mid.readings ≠ [] ∧ mid.rollups = [] ∧
      mid ≠ (postCommits emptyDB { when_recorded := 0, value := 1 }).getLastI := by
  refine ⟨(postCommits emptyDB { when_recorded := 0, value := 1 }).getI 1, ?_, ?_, ?_, ?_⟩ <;>
    decide

/-! ### Claim C3 (amended): results come back in rowid order, not time order -/

/-- C3 counterexample: the collection queries contain no ORDER BY, so rows
come back in rowid (insertion) order; inserting a reading at minute 15 and
then one at minute 0 of the same day makes the no-criteria query return
the two rows out of ascending when_recorded order. -/
theorem collection_get_not_time_ordered :
    ¬ List.Sorted (fun a b : Reading => a.when_recorded ≤ b.when_recorded)
      (TemperatureCollection.get
        (run [.post { when_recorded := 15 * usPerMinute, value := 1 },
              .post { when_recorded := 0, value := 2 }]) {}) ∧
    (TemperatureCollection.get
        (run [.post { when_recorded := 15 * usPerMinute, value := 1 },
              .post { when_recorded := 0, value := 2 }]) {}).map
      Reading.when_recorded = [15 * usPerMinute, 0] := by
  constructor
  · decide
  · decide

/-- C3 (amended): for every criteria shape and for both the readings table
and the daily rollup table, the interval query returns the matching rows
in rowid (insertion) order - a subsequence of the table - and therefore in
ascending time order exactly when the table itself is in ascending time
order; with no criteria it returns every row of the table in that order. -/
theorem collection_get_insertion_order (db : DB) (c : Criteria)
    (hr : List.Sorted (fun a b : Reading => a.when_recorded ≤ b.when_recorded) db.readings)
    (hd : List.Sorted (fun a b : DailyRollup => a.day ≤ b.day) db.rollups) :
    List.Sublist (TemperatureCollection.get db c) db.readings ∧
    List.Sublist (DailyTemperatureCollection.get db c) db.rollups ∧
    List.Sorted (fun a b : Reading => a.when_recorded ≤ b.when_recorded)
      (TemperatureCollection.get db c) ∧
    List.Sorted (fun a b : DailyRollup => a.day ≤ b.day)
      (DailyTemperatureCollection.get db c) ∧
    TemperatureCollection.get db {} = db.readings ∧
    DailyTemperatureCollection.get db {} = db.rollups := by
  refine ⟨List.filter_sublist _, List.filter_sublist _, ?_, ?_, ?_, ?_⟩
  · exact List.Pairwise.sublist (List.filter_sublist _) hr
  · exact List.Pairwise.sublist (List.filter_sublist _) hd
  · simp [TemperatureCollection.get, add_date_criteria_to_query, List.filter_eq_self]
  · simp [DailyTemperatureCollection.get, add_date_criteria_to_query, List.filter_eq_self]

/-- Witness for C3 (amended) on a chronologically loaded store. -/
theorem collection_get_insertion_order_witness :
    let db : DB :=
      { readings := [{ id := 1, when_recorded := 0, value := 2 },
                     { id := 2, when_recorded := 900000000, value := 1 }]
        rollups := [] }
    List.Sorted (fun a b : Reading => a.when_recorded ≤ b.when_recorded) db.readings ∧
    TemperatureCollection.get db {} = db.readings ∧
    List.Sorted (fun a b : Reading => a.when_recorded ≤ b.when_recorded)
      (TemperatureCollection.get db { after := some 1 }) :=
  ⟨by decide,
    (collection_get_insertion_order _ {} (by decide) (by decide)).2.2.2.2.1,
    (collection_get_insertion_order _ { after := some 1 } (by decide) (by decide)).2.2.1⟩

/-! ### Claim C9 (amended): correction semantics of the PUT endpoints -/

/-- C9 counterexample: the claim says every quantity accepts a partial body
with value and secondary_value each independently optional, but the
temperature PUT schema makes the value required, so an empty body on an
existing temperature id is rejected with a validation error instead of
succeeding; and on pressure a body with both fields absent produces a
malformed UPDATE (server error) instead of success. -/
theorem put_partial_body_refuted :
    let db : DB := { readings := [{ id := 1, when_recorded := 0, value := 1 }], rollups := [] }
    (∃ r ∈ db.readings, r.id = 1) ∧
    TemperatureDocument.put db 1 none = (db, .badRequest) ∧
    PressureDocument.put db 1 {} = (db, .serverError) := by
  refine ⟨⟨{ id := 1, when_recorded := 0, value := 1 }, by decide, rfl⟩, rfl, by decide⟩

/-- C9 (amended): corrections behave per quantity as the code's schemas
dictate: a temperature PUT requires the value (an absent value is a 400
validation error), while a pressure PUT accepts value and secondary_value
independently present or absent except that a body with neither field
fails with a storage error; with an existing identifier and an acceptable
body the operation succeeds and changes only the supplied mutable fields,
leaving id, when_recorded, resolution (and for temperature the secondary
value) of every row unchanged and other rows untouched; with an unknown
identifier it returns NotFound and changes nothing. -/
theorem put_correction_semantics (db : DB) (id : ℕ) :
    TemperatureDocument.put db id none = (db, .badRequest) ∧
    (db.readings.find? (fun r => r.id == id) = none →
      (∀ v : ℚ, TemperatureDocument.put db id (some v) = (db, .notFound)) ∧
      (∀ body : PressurePutBody, PressureDocument.put db id body = (db, .notFound))) ∧
    (∀ result, db.readings.find? (fun r => r.id == id) = some result →
      PressureDocument.put db id { value := none, secondary_value := none } =
        (db, .serverError) ∧
      (∀ v : ℚ,
        (TemperatureDocument.put db id (some v)).2 = .noContent ∧
        List.Forall₂ (fun r r' : Reading =>
            r'.id = r.id ∧ r'.when_recorded = r.when_recorded ∧
            r'.resolution = r.resolution ∧ r'.secondary_value = r.secondary_value ∧
            (r.id ≠ id → r' = r) ∧ (r.id = id → r'.value = v))
          db.readings (TemperatureDocument.put db id (some v)).1.readings) ∧
      (∀ body : PressurePutBody, body ≠ { value := none, secondary_value := none } →
        (PressureDocument.put db id body).2 = .noContent ∧
        List.Forall₂ (fun r r' : Reading =>
            r'.id = r.id ∧ r'.when_recorded = r.when_recorded ∧
            r'.resolution = r.resolution ∧
            (r.id ≠ id → r' = r) ∧
            (r.id = id →
              (body.value = none → r'.value = r.value) ∧
              (∀ bv, body.value = some bv → r'.value = bv) ∧
              (body.secondary_value = none → r'.secondary_value = r.secondary_value) ∧
              (∀ sv, body.secondary_value = some sv → r'.secondary_value = some sv)))
          db.readings (PressureDocument.put db id body).1.readings)) := by
  refine ⟨rfl, ?_, ?_⟩
  · intro h
    constructor
    · intro v
      simp only [TemperatureDocument.put, h]
    · intro body
      simp only [PressureDocument.put, h]
  · intro result h
    refine ⟨?_, ?_, ?_⟩
    · simp only [PressureDocument.put, h]
    · intro v
      have hput : (TemperatureDocument.put db id (some v)).1.readings =
          db.readings.map (fun r => if r.id == id then { r with value := v } else r) := by
        simp only [TemperatureDocument.put, h]
        rw [update_daily_readings_eq]
      refine ⟨by simp only [TemperatureDocument.put, h], ?_⟩
      rw [hput]
      rw [List.forall₂_map_right_iff]
      rw [List.forall₂_same]
      intro a ha
      by_cases hid : a.id = id
      · simp [hid]
      · simp [hid]
    · intro body hbody
      obtain ⟨bv, bsv⟩ := body
      have hne : ¬ (bv = none ∧ bsv = none) := by
        intro ⟨h1, h2⟩
        exact hbody (by rw [h1, h2])
      have hput : PressureDocument.put db id ⟨bv, bsv⟩ =
          (update_daily_temperatures
            { db with readings := db.readings.map fun r =>
                if r.id == id then
                  { r with
                    value := bv.getD r.value
                    secondary_value := match bsv with
                      | some sv => some sv
                      | none => r.secondary_value }
                else r }
            result.when_recorded, .noContent) := by
        simp only [PressureDocument.put, h]
        cases bv <;> cases bsv
        · exact absurd ⟨rfl, rfl⟩ hne
        all_goals rfl
      refine ⟨by rw [hput], ?_⟩
      rw [hput]
      simp only
      rw [update_daily_readings_eq]
      rw [List.forall₂_map_right_iff]
      rw [List.forall₂_same]
      intro a ha
      by_cases hid : a.id = id
      · cases bv <;> cases bsv <;> simp [hid]
      · simp [hid]

/-- Witness for C9 (amended): an existing pressure row corrected with only
a secondary value keeps its value and timestamp. -/
theorem put_correction_semantics_witness :
    let db : DB := { readings := [{ id := 1, when_recorded := 0, value := 1 }], rollups := [] }
    db.readings.find? (fun r => r.id == 1) = some { id := 1, when_recorded := 0, value := 1 } ∧
    (PressureDocument.put db 1 { secondary_value := some 9 }).2 = .noContent ∧
    TemperatureDocument.put db 1 none = (db, .badRequest) := by
  have h := put_correction_semantics
    { readings := [{ id := 1, when_recorded := 0, value := 1 }], rollups := [] } 1
  refine ⟨by decide, ?_, h.1⟩
  exact (((h.2.2 { id := 1, when_recorded := 0, value := 1 } (by decide)).2.2
    { secondary_value := some 9 } (by decide))).1

/-! ### Helper lemmas about sorting and sums -/

theorem sortDesc_nil : sortDesc [] = [] := rfl

theorem sortDesc_perm (rs : List Reading) : List.Perm (sortDesc rs) rs :=
  List.perm_insertionSort valueDesc rs

theorem sortDesc_sorted (rs : List Reading) : List.Sorted valueDesc (sortDesc rs) :=
  List.sorted_insertionSort valueDesc rs

theorem valuesSum_eq_map_sum (rs : List Reading) :
    valuesSum rs = (rs.map Reading.value).sum := by
  rw [valuesSum, List.sum_eq_foldl, List.foldl_map]

theorem valuesSum_perm {l1 l2 : List Reading} (h : List.Perm l1 l2) :
    valuesSum l1 = valuesSum l2 := by
  rw [valuesSum_eq_map_sum, valuesSum_eq_map_sum]
  exact (h.map Reading.value).sum_eq

/-- In a value-descending sorted list every value is at most the head's. -/
theorem sorted_head_max {l : List Reading} (hs : List.Sorted valueDesc l) :
    ∀ r ∈ l, r.value ≤ l.headI.value := by
  intro r hr
  cases l with
  | nil => cases hr
  | cons x xs =>
    rcases List.mem_cons.mp hr with rfl | hmem
    · exact le_refl _
    · exact List.rel_of_sorted_cons hs _ hmem

/-- In a value-descending sorted list the last element's value is at most
every value. -/
theorem sorted_getLast_min {l : List Reading} (hs : List.Sorted valueDesc l) (hne : l ≠ []) :
    ∀ r ∈ l, (l.getLast hne).value ≤ r.value := by
  induction l with
  | nil => intro r hr; cases hr
  | cons x xs ih =>
    intro r hr
    cases xs with
    | nil =>
      rcases List.mem_cons.mp hr with rfl | hmem
      · exact le_refl _
      · cases hmem
    | cons y ys =>
      rw [List.getLast_cons_cons]
      rcases List.mem_cons.mp hr with rfl | hmem
      · exact List.rel_of_sorted_cons hs _ (List.getLast_mem _)
      · exact ih hs.of_cons (List.cons_ne_nil y ys) r hmem

/-- getLastI of a nonempty list is its getLast. -/
theorem getLastI_eq_getLast {l : List Reading} (hne : l ≠ []) :
    l.getLastI = l.getLast hne := by
  rw [List.getLastI_eq_getLast?, List.getLast?_eq_getLast_of_ne_nil hne]

/-- The branch of update_daily_temperatures taken when the day is empty. -/
theorem update_daily_of_nil {db : DB} {w : ℕ}
    (hs : sortDesc (readingsForDay db.readings (w / usPerDay)) = []) :
    update_daily_temperatures db w = db := by
  simp only [update_daily_temperatures, hs]

/-- The branch of update_daily_temperatures taken when the day has
readings: upsert the recomputed data dict. -/
theorem update_daily_of_cons {db : DB} {w : ℕ} {t0 : Reading} {rest : List Reading}
    (hs : sortDesc (readingsForDay db.readings (w / usPerDay)) = t0 :: rest) :
    update_daily_temperatures db w =
      match db.rollups.find? (fun ru => ru.day == w / usPerDay) with
      | some existing =>
        { db with rollups := db.rollups.map fun ru =>
            if ru.id == existing.id then rollupData (w / usPerDay) (t0 :: rest) ru.id else ru }
      | none =>
        { db with
          rollups := db.rollups ++ [rollupData (w / usPerDay) (t0 :: rest) db.nextRollupId]
          nextRollupId := db.nextRollupId + 1 } := by
  simp only [update_daily_temperatures, hs]

/-! ### Claim C1: the recomputed daily statistics -/

/-- C1: recompute reads exactly the readings with when_recorded in the
half-open interval from day 00:00 to the next day 00:00; an empty day
creates and removes no rollup row (the store is unchanged); a nonempty day
upserts a rollup row whose high is the first element of the
value-descending sort (a maximum), low the last element (a minimum),
median the element at index floor(n/2) of that sorted sequence (an actual
element, never an average), mean the accumulated sum divided by the count,
and whose recorded timestamps are the when_recorded of the readings chosen
for those statistics; a day with exactly one reading yields
high = low = median = mean = that reading's value with all three
timestamps equal to its timestamp. -/
theorem recompute_daily_rollup_stats (db : DB) (w d : ℕ) (temps sorted : List Reading)
    (hd : d = w / usPerDay) (htemps : temps = readingsForDay db.readings d)
    (hsorted : sorted = sortDesc temps) :
    (∀ r : Reading, r ∈ temps ↔
      r ∈ db.readings ∧ d * usPerDay ≤ r.when_recorded ∧
        r.when_recorded < (d + 1) * usPerDay) ∧
    (temps = [] → update_daily_temperatures db w = db) ∧
    (temps ≠ [] →
      ∃ ru ∈ (update_daily_temperatures db w).rollups,
        ru.day = d ∧
        ru.high = sorted.headI.value ∧
        ru.high_recorded = sorted.headI.when_recorded ∧
        ru.low = sorted.getLastI.value ∧
        ru.low_recorded = sorted.getLastI.when_recorded ∧
        ru.median = (sorted.getI (sorted.length / 2)).value ∧
        ru.median_recorded = (sorted.getI (sorted.length / 2)).when_recorded ∧
        ru.mean * (temps.length : ℚ) = valuesSum temps ∧
        (∀ r ∈ temps, r.value ≤ ru.high) ∧
        (∀ r ∈ temps, ru.low ≤ r.value) ∧
        (∃ hr ∈ temps, hr.value = ru.high ∧ hr.when_recorded = ru.high_recorded) ∧
        (∃ lr ∈ temps, lr.value = ru.low ∧ lr.when_recorded = ru.low_recorded) ∧
        (∃ mr ∈ temps, mr.value = ru.median ∧ mr.when_recorded = ru.median_recorded)) ∧
    (∀ r0 : Reading, temps = [r0] →
      ∃ ru ∈ (update_daily_temperatures db w).rollups,
        ru.day = d ∧ ru.high = r0.value ∧ ru.low = r0.value ∧
        ru.median = r0.value ∧ ru.mean = r0.value ∧
        ru.high_recorded = r0.when_recorded ∧ ru.low_recorded = r0.when_recorded ∧
        ru.median_recorded = r0.when_recorded) := by
  subst hd
  subst htemps
  subst hsorted
  have main : readingsForDay db.readings (w / usPerDay) ≠ [] →
      ∃ ru ∈ (update_daily_temperatures db w).rollups,
        ru.day = w / usPerDay ∧
        ru.high = (sortDesc (readingsForDay db.readings (w / usPerDay))).headI.value ∧
        ru.high_recorded =
          (sortDesc (readingsForDay db.readings (w / usPerDay))).headI.when_recorded ∧
        ru.low = (sortDesc (readingsForDay db.readings (w / usPerDay))).getLastI.value ∧
        ru.low_recorded =
          (sortDesc (readingsForDay db.readings (w / usPerDay))).getLastI.when_recorded ∧
        ru.median = ((sortDesc (readingsForDay db.readings (w / usPerDay))).getI
          ((sortDesc (readingsForDay db.readings (w / usPerDay))).length / 2)).value ∧
        ru.median_recorded = ((sortDesc (readingsForDay db.readings (w / usPerDay))).getI
          ((sortDesc (readingsForDay db.readings (w / usPerDay))).length / 2)).when_recorded ∧
        ru.mean * ((readingsForDay db.readings (w / usPerDay)).length : ℚ) =
          valuesSum (readingsForDay db.readings (w / usPerDay)) ∧
        (∀ r ∈ readingsForDay db.readings (w / usPerDay), r.value ≤ ru.high) ∧
        (∀ r ∈ readingsForDay db.readings (w / usPerDay), ru.low ≤ r.value) ∧
        (∃ hr ∈ readingsForDay db.readings (w / usPerDay),
          hr.value = ru.high ∧ hr.when_recorded = ru.high_recorded) ∧
        (∃ lr ∈ readingsForDay db.readings (w / usPerDay),
          lr.value = ru.low ∧ lr.when_recorded = ru.low_recorded) ∧
        (∃ mr ∈ readingsForDay db.readings (w / usPerDay),
          mr.value = ru.median ∧ mr.when_recorded = ru.median_recorded) := by
    intro hne
    have hperm := sortDesc_perm (readingsForDay db.readings (w / usPerDay))
    have hsrtd := sortDesc_sorted (readingsForDay db.readings (w / usPerDay))
    cases hsrt : sortDesc (readingsForDay db.readings (w / usPerDay)) with
    | nil =>
      rw [hsrt] at hperm
      exact absurd hperm.symm.eq_nil hne
    | cons t0 rest =>
      rw [hsrt] at hperm hsrtd
      have hcne : t0 :: rest ≠ [] := List.cons_ne_nil t0 rest
      have hlen : (t0 :: rest).length = (readingsForDay db.readings (w / usPerDay)).length :=
        hperm.length_eq
      have hlenpos : 0 < (readingsForDay db.readings (w / usPerDay)).length :=
        List.length_pos.mpr hne
      have hcast : ((readingsForDay db.readings (w / usPerDay)).length : ℚ) ≠ 0 :=
        Nat.cast_ne_zero.mpr hlenpos.ne'

      have hidx : (t0 :: rest).length / 2 < (t0 :: rest).length :=
        Nat.div_lt_self (by simp) (by norm_num)
      have props : ∀ id0 : ℕ,
          (rollupData (w / usPerDay) (t0 :: rest) id0).day = w / usPerDay ∧
          (rollupData (w / usPerDay) (t0 :: rest) id0).high = (t0 :: rest).headI.value ∧
          (rollupData (w / usPerDay) (t0 :: rest) id0).high_recorded =
            (t0 :: rest).headI.when_recorded ∧
          (rollupData (w / usPerDay) (t0 :: rest) id0).low = (t0 :: rest).getLastI.value ∧
          (rollupData (w / usPerDay) (t0 :: rest) id0).low_recorded =
            (t0 :: rest).getLastI.when_recorded ∧
          (rollupData (w / usPerDay) (t0 :: rest) id0).median =
            ((t0 :: rest).getI ((t0 :: rest).length / 2)).value ∧
          (rollupData (w / usPerDay) (t0 :: rest) id0).median_recorded =
            ((t0 :: rest).getI ((t0 :: rest).length / 2)).when_recorded ∧
          (rollupData (w / usPerDay) (t0 :: rest) id0).mean *
              ((readingsForDay db.readings (w / usPerDay)).length : ℚ) =
            valuesSum (readingsForDay db.readings (w / usPerDay)) ∧
          (∀ r ∈ readingsForDay db.readings (w / usPerDay),
            r.value ≤ (rollupData (w / usPerDay) (t0 :: rest) id0).high) ∧
          (∀ r ∈ readingsForDay db.readings (w / usPerDay),
            (rollupData (w / usPerDay) (t0 :: rest) id0).low ≤ r.value) ∧
          (∃ hr ∈ readingsForDay db.readings (w / usPerDay),
            hr.value = (rollupData (w / usPerDay) (t0 :: rest) id0).high ∧
            hr.when_recorded = (rollupData (w / usPerDay) (t0 :: rest) id0).high_recorded) ∧
          (∃ lr ∈ readingsForDay db.readings (w / usPerDay),
            lr.value = (rollupData (w / usPerDay) (t0 :: rest) id0).low ∧
            lr.when_recorded = (rollupData (w / usPerDay) (t0 :: rest) id0).low_recorded) ∧
          (∃ mr ∈ readingsForDay db.readings (w / usPerDay),
            mr.value = (rollupData (w / usPerDay) (t0 :: rest) id0).median ∧
            mr.when_recorded = (rollupData (w / usPerDay) (t0 :: rest) id0).median_recorded) := by
        intro id0
        refine ⟨rfl, rfl, rfl, rfl, rfl, rfl, rfl, ?_, ?_, ?_, ?_, ?_, ?_⟩
        · show valuesSum (t0 :: rest) / ((t0 :: rest).length : ℚ) *
              ((readingsForDay db.readings (w / usPerDay)).length : ℚ) =
            valuesSum (readingsForDay db.readings (w / usPerDay))
          rw [valuesSum_perm hperm, hlen]
          exact div_mul_cancel₀ _ hcast
        · intro r hr
          exact sorted_head_max hsrtd r (hperm.mem_iff.mpr hr)
        · intro r hr
          show (t0 :: rest).getLastI.value ≤ r.value
          rw [getLastI_eq_getLast hcne]
          exact sorted_getLast_min hsrtd hcne r (hperm.mem_iff.mpr hr)
        · exact ⟨t0, hperm.mem_iff.mp (List.mem_cons_self t0 rest), rfl, rfl⟩
        · refine ⟨(t0 :: rest).getLast hcne,
            hperm.mem_iff.mp (List.getLast_mem hcne), ?_, ?_⟩
          · show ((t0 :: rest).getLast hcne).value = (t0 :: rest).getLastI.value
            rw [getLastI_eq_getLast hcne]
          · show ((t0 :: rest).getLast hcne).when_recorded =
              (t0 :: rest).getLastI.when_recorded
            rw [getLastI_eq_getLast hcne]
        · refine ⟨(t0 :: rest).getI ((t0 :: rest).length / 2), ?_, rfl, rfl⟩
          apply hperm.mem_iff.mp
          rw [List.getI_eq_getElem _ hidx]
          exact List.getElem_mem _
      rw [update_daily_of_cons hsrt]
      cases hf : db.rollups.find? (fun ru => ru.day == w / usPerDay) with
      | some existing =>
        refine ⟨rollupData (w / usPerDay) (t0 :: rest) existing.id, ?_, props existing.id⟩
        have hmem : existing ∈ db.rollups := List.mem_of_find?_eq_some hf
        have himg : (fun ru => if ru.id == existing.id
            then rollupData (w / usPerDay) (t0 :: rest) ru.id else ru) existing =
            rollupData (w / usPerDay) (t0 :: rest) existing.id := by simp
        exact himg ▸ List.mem_map_of_mem _ hmem
      | none =>
        refine ⟨rollupData (w / usPerDay) (t0 :: rest) db.nextRollupId, ?_,
          props db.nextRollupId⟩
        simp
  refine ⟨?_, ?_, main, ?_⟩
  · intro r
    simp [readingsForDay, List.mem_filter, and_assoc]
  · intro h
    apply update_daily_of_nil
    rw [h]
    exact sortDesc_nil
  · intro r0 h0
    obtain ⟨ru, hmem, hday, hhigh, hhighr, hlow, hlowr, hmed, hmedr, hmean, _⟩ :=
      main (by rw [h0]; exact List.cons_ne_nil r0 [])
    rw [h0] at hhigh hhighr hlow hlowr hmed hmedr hmean
    have hs1 : sortDesc [r0] = [r0] := rfl
    rw [hs1] at hmed hmedr
    refine ⟨ru, hmem, hday, hhigh, ?_, ?_, ?_, hhighr, ?_, ?_⟩
    · exact hlow
    · simpa using hmed
    · have : valuesSum [r0] = r0.value := by simp [valuesSum]
      rw [this] at hmean
      simpa using hmean
    · exact hlowr
    · simpa using hmedr

/-- The three-reading example day used to witness C1. -/
def exampleDayDB : DB :=
  { readings := [{ id := 1, when_recorded := 15 * usPerMinute, value := 10 },
                 { id := 2, when_recorded := 360 * usPerMinute, value := 20 },
                 { id := 3, when_recorded := 720 * usPerMinute, value := 15 }]
    rollups := [], nextReadingId := 4, nextRollupId := 1 }

/-- Witness for C1: the three-reading day 10.0 at 00:15, 20.0 at 06:00,
15.0 at 12:00 rolls up to high 20 at 06:00, low 10 at 00:15, median 15 at
12:00 and mean 15. -/
theorem recompute_daily_rollup_stats_witness :
    ∃ ru ∈ (update_daily_temperatures exampleDayDB 0).rollups,
      ru.day = 0 ∧ ru.high = 20 ∧ ru.low = 10 ∧ ru.median = 15 ∧ ru.mean = 15 ∧
      ru.high_recorded = 360 * usPerMinute ∧ ru.low_recorded = 15 * usPerMinute ∧
      ru.median_recorded = 720 * usPerMinute := by
  obtain ⟨ru, hmem, hday, hhigh, hhighr, hlow, hlowr, hmed, hmedr, hmean, _⟩ :=
    (recompute_daily_rollup_stats exampleDayDB 0 0 _ _ rfl rfl rfl).2.2.1 (by decide)
  have hfilter : readingsForDay exampleDayDB.readings 0 = exampleDayDB.readings := by decide
  rw [hfilter] at hmean
  have hl : ((exampleDayDB.readings.length : ℕ) : ℚ) = 3 := by
    norm_num [exampleDayDB]
  have hs45 : valuesSum exampleDayDB.readings = 45 := by
    norm_num [exampleDayDB, valuesSum]
  rw [hl, hs45] at hmean
  refine ⟨ru, hmem, hday, ?_, ?_, ?_, ?_, ?_, ?_, ?_⟩
  · rw [hhigh]; decide
  · rw [hlow]; decide
  · rw [hmed]; decide
  · linarith
  · rw [hhighr]; decide
  · rw [hlowr]; decide
  · rw [hmedr]; decide

/-! ### Claim C6: uniqueness of rollup rows and in-place upsert -/

/-- The rollup-table invariant: pairwise distinct days, pairwise distinct
rowids, and every rowid below the next fresh one. -/
def RollupInv (db : DB) : Prop :=
  db.rollups.Pairwise (fun a b => a.day ≠ b.day) ∧
  db.rollups.Pairwise (fun a b => a.id ≠ b.id) ∧
  ∀ ru ∈ db.rollups, ru.id < db.nextRollupId

/-- With pairwise-distinct days, the lookup of a day returns the unique row
carrying it. -/
theorem find?_day_unique {l : List DailyRollup} {d : ℕ}
    (hdays : l.Pairwise (fun a b => a.day ≠ b.day)) {ru : DailyRollup}
    (hmem : ru ∈ l) (hday : ru.day = d) :
    l.find? (fun x => x.day == d) = some ru := by
  induction l with
  | nil => cases hmem
  | cons x xs ih =>
    rcases List.mem_cons.mp hmem with rfl | hmem'
    · rw [List.find?_cons_of_pos _ (by simp [hday])]
    · have hx : (x.day == d) = false := by
        have hne := List.rel_of_pairwise_cons hdays hmem'
        rw [hday] at hne
        simp [hne]
      rw [show (x :: xs).find? (fun y => y.day == d) = xs.find? (fun y => y.day == d) by
        simp [List.find?, hx]]
      exact ih hdays.of_cons hmem'

/-- Recomputation preserves the rollup-table invariant. -/
theorem rollupInv_update_daily (db : DB) (w : ℕ) (h : RollupInv db) :
    RollupInv (update_daily_temperatures db w) := by
  obtain ⟨hdays, hids, hbound⟩ := h
  cases hs : sortDesc (readingsForDay db.readings (w / usPerDay)) with
  | nil => rw [update_daily_of_nil hs]; exact ⟨hdays, hids, hbound⟩
  | cons t0 rest =>
    rw [update_daily_of_cons hs]
    cases hf : db.rollups.find? (fun ru => ru.day == w / usPerDay) with
    | some existing =>
      have hexmem : existing ∈ db.rollups := List.mem_of_find?_eq_some hf
      have hexday : existing.day = w / usPerDay := by
        have := List.find?_some hf
        simpa using this
      have hkey : ∀ ru ∈ db.rollups,
          ((fun ru => if ru.id == existing.id
            then rollupData (w / usPerDay) (t0 :: rest) ru.id else ru) ru).day = ru.day ∧
          ((fun ru => if ru.id == existing.id
            then rollupData (w / usPerDay) (t0 :: rest) ru.id else ru) ru).id = ru.id := by
        intro ru hru
        by_cases hid : (ru.id == existing.id) = true
        · rcases eq_or_ne ru existing with rfl | hne
          · simp only [hid, if_pos]
            exact ⟨by rw [← hexday]; rfl, rfl⟩
          · have hforall := List.Pairwise.forall (fun _ _ h => Ne.symm h) hids
            exact absurd (by simpa using hid) (hforall hru hexmem hne)
        · simp only [hid]
          exact ⟨by simp, by simp⟩
      refine ⟨?_, ?_, ?_⟩
      · rw [List.pairwise_map]
        refine List.Pairwise.imp_of_mem ?_ hdays
        intro a b ha hb hab
        rw [(hkey a ha).1, (hkey b hb).1]
        exact hab
      · rw [List.pairwise_map]
        refine List.Pairwise.imp_of_mem ?_ hids
        intro a b ha hb hab
        rw [(hkey a ha).2, (hkey b hb).2]
        exact hab
      · intro ru hru
        rcases List.mem_map.mp hru with ⟨a, ha, rfl⟩
        rw [(hkey a ha).2]
        exact hbound a ha
    | none =>
      have hnone : ∀ ru ∈ db.rollups, ru.day ≠ w / usPerDay := by
        intro ru hru
        have := List.find?_eq_none.mp hf ru hru
        simpa using this
      refine ⟨?_, ?_, ?_⟩
      · rw [List.pairwise_append]
        refine ⟨hdays, List.pairwise_singleton _ _, ?_⟩
        intro a ha b hb
        rcases List.mem_singleton.mp hb with rfl
        exact hnone a ha
      · rw [List.pairwise_append]
        refine ⟨hids, List.pairwise_singleton _ _, ?_⟩
        intro a ha b hb
        rcases List.mem_singleton.mp hb with rfl
        exact Nat.ne_of_lt (hbound a ha)
      · intro ru hru
        rcases List.mem_append.mp hru with hin | hin
        · exact Nat.lt_succ_of_lt (hbound ru hin)
        · rcases List.mem_singleton.mp hin with rfl
          exact Nat.lt_succ_self _

/-- Every operation of the store preserves the rollup-table invariant. -/
theorem rollupInv_applyOp (db : DB) (op : Op) (h : RollupInv db) :
    RollupInv (applyOp db op) := by
  cases op with
  | post b =>
    simp only [applyOp]
    cases hf : findByTimestamp db.readings (normalise b.when_recorded b.resolution) with
    | some ex =>
      rw [post_of_find_some db b ex hf]
      exact h
    | none =>
      rw [post_of_find_none db b hf]
      exact rollupInv_update_daily _ _ ⟨h.1, h.2.1, h.2.2⟩
  | put id v =>
    simp only [applyOp, TemperatureDocument.put]
    cases hf : db.readings.find? (fun r => r.id == id) with
    | none =>
      simp only [hf]
      exact h
    | some result =>
      simp only [hf]
      exact rollupInv_update_daily _ _ ⟨h.1, h.2.1, h.2.2⟩
  | recompute w => exact rollupInv_update_daily _ _ h

/-- The rollup-table invariant holds in every state reachable from the
fresh store. -/
theorem rollupInv_run (ops : List Op) : RollupInv (run ops) := by
  suffices H : ∀ db, RollupInv db → RollupInv (ops.foldl applyOp db) by
    refine H emptyDB ⟨List.Pairwise.nil, List.Pairwise.nil, ?_⟩
    intro ru hru
    cases hru
  induction ops with
  | nil => intro db h; exact h
  | cons op ops ih =>
    intro db h
    exact ih _ (rollupInv_applyOp db op h)

/-- C6: every state reachable by inserts, corrections and recomputations
has at most one rollup row per day (pairwise distinct days); and on a
store satisfying the rollup invariant, recomputing a nonempty day with an
existing rollup row for that day overwrites exactly that row in place
(same position, same identifier, all data fields replaced) leaving the
rowid counter alone, while recomputing a day with no rollup row appends a
single fresh row. -/
theorem rollup_day_unique_upsert (ops : List Op) (db : DB) (w : ℕ) (hinv : RollupInv db) :
    (run ops).rollups.Pairwise (fun a b => a.day ≠ b.day) ∧
    (readingsForDay db.readings (w / usPerDay) ≠ [] →
      (∀ ru ∈ db.rollups, ru.day = w / usPerDay →
        (update_daily_temperatures db w).rollups =
          db.rollups.map (fun x => if x.id == ru.id then
            rollupData (w / usPerDay)
              (sortDesc (readingsForDay db.readings (w / usPerDay))) x.id else x) ∧
        (update_daily_temperatures db w).nextRollupId = db.nextRollupId) ∧
      ((∀ ru ∈ db.rollups, ru.day ≠ w / usPerDay) →
        (update_daily_temperatures db w).rollups =
          db.rollups ++ [rollupData (w / usPerDay)
            (sortDesc (readingsForDay db.readings (w / usPerDay))) db.nextRollupId] ∧
        (update_daily_temperatures db w).nextRollupId = db.nextRollupId + 1)) := by
  constructor
  · exact (rollupInv_run ops).1
  · intro hne
    cases hsrt : sortDesc (readingsForDay db.readings (w / usPerDay)) with
    | nil =>
      have hperm := sortDesc_perm (readingsForDay db.readings (w / usPerDay))
      rw [hsrt] at hperm
      exact absurd hperm.symm.eq_nil hne
    | cons t0 rest =>
      constructor
      · intro ru hru hday
        have hf := find?_day_unique hinv.1 hru hday
        rw [update_daily_of_cons hsrt]
        simp only [hf]
        exact ⟨trivial, trivial⟩
      · intro hnone
        have hf : db.rollups.find? (fun x => x.day == w / usPerDay) = none :=
          List.find?_eq_none.mpr (fun x hx => by simpa using hnone x hx)
        rw [update_daily_of_cons hsrt]
        simp only [hf]
        exact ⟨trivial, trivial⟩

/-- A one-day store with one existing rollup row, used to witness C6. -/
def exampleRollupDB : DB :=
  { readings := [{ id := 1, when_recorded := 0, value := 5 }]
    rollups := [{ id := 7, day := 0, high := 9, low := 9, mean := 9, median := 9,
                  high_recorded := 0, low_recorded := 0, median_recorded := 0 }]
    nextReadingId := 2, nextRollupId := 8 }

/-- Witness for C6: two inserts from the fresh store keep rollup days
unique, and recomputing day 0 of a store that already has a day-0 rollup
overwrites that row in place keeping rowid 7. -/
theorem rollup_day_unique_upsert_witness :
    RollupInv exampleRollupDB ∧
    (run [.post { when_recorded := 0, value := 1 },
          .post { when_recorded := 15 * usPerMinute, value := 2 }]).rollups.Pairwise
      (fun a b => a.day ≠ b.day) ∧
    ((update_daily_temperatures exampleRollupDB 0).rollups =
      exampleRollupDB.rollups.map (fun x => if x.id == 7 then
        rollupData (0 / usPerDay)
          (sortDesc (readingsForDay exampleRollupDB.readings (0 / usPerDay))) x.id else x) ∧
      (update_daily_temperatures exampleRollupDB 0).nextRollupId =
        exampleRollupDB.nextRollupId) := by
  have hinv : RollupInv exampleRollupDB := by
    refine ⟨?_, ?_, ?_⟩ <;> decide
  have h := rollup_day_unique_upsert
    [.post { when_recorded := 0, value := 1 },
     .post { when_recorded := 15 * usPerMinute, value := 2 }]
    exampleRollupDB 0 hinv
  refine ⟨hinv, h.1, ?_⟩
  exact (h.2 (by decide)).1
    { id := 7, day := 0, high := 9, low := 9, mean := 9, median := 9,
      high_recorded := 0, low_recorded := 0, median_recorded := 0 }
    (by decide) rfl
